import Mathlib

/-!
Verification of the vxcube-api client library (`vxcube_api/objects.py`,
`vxcube_api/utils.py`) against its natural-language specification.

Modelling conventions:
- Python attributes that may be unset or `None` are modelled as `Option` values
  (the code always reads them through `getattr(self, key, None)`-style access or
  after initialisation, so unset and `None` collapse).
- A Python keyword-argument payload is modelled per slot as `Option (Option v)`:
  `none` means the key is absent from the payload, `some v` means the key is
  present with value `v` (which may itself be the Python `None`, i.e. `none`).
- `dateutil` time parsing (`_convert_time`) is value-preserving for the claims
  below (no claim inspects a parsed date), so date fields are kept as raw
  optional strings.
- The `_raw_api` back-reference never influences the state logic proved here and
  is omitted from the structures.
-/

namespace VxCubeApi

/-- Apply one payload slot on top of a current attribute value, as
`ApiObject.update` does: an absent key keeps the current value, a present key
overwrites it (possibly with `None`). -/
def applyField (cur : Option α) (upd : Option (Option α)) : Option α :=
  match upd with
  | none => cur
  | some v => v

/-- Python `kwargs.setdefault(key, None)`: an absent key becomes present with
value `None`; a present key is left alone. -/
def setdefaultNone (upd : Option (Option α)) : Option (Option α) :=
  match upd with
  | none => some none
  | some v => some v

/-- The `Task` object of `objects.py`: basic slots plus the variable slots
`message`, `progress` (processing) and `verdict`, `rules` (successful). -/
structure Task where
  id : Option Int
  status : Option String
  platform_code : Option String
  start_date : Option String
  end_date : Option String
  maliciousness : Option Int
  message : Option String
  progress : Option Int
  verdict : Option String
  rules : Option (List String)
deriving Repr, DecidableEq

/-- A keyword payload for `Task.update`; every field of `Task` is a slot, so
every key of the payload is applied. -/
structure TaskPayload where
  id : Option (Option Int)
  status : Option (Option String)
  platform_code : Option (Option String)
  start_date : Option (Option String)
  end_date : Option (Option String)
  maliciousness : Option (Option Int)
  message : Option (Option String)
  progress : Option (Option Int)
  verdict : Option (Option String)
  rules : Option (Option (List String))
deriving Repr, DecidableEq

/-- The empty payload (no keys present). -/
def TaskPayload.empty : TaskPayload :=
  ⟨none, none, none, none, none, none, none, none, none, none⟩

/-- `ApiObject.update` specialised to `Task`: every present key that names a
slot is written onto the object. -/
def Task.applyPayload (t : Task) (p : TaskPayload) : Task where
  id := applyField t.id p.id
  status := applyField t.status p.status
  platform_code := applyField t.platform_code p.platform_code
  start_date := applyField t.start_date p.start_date
  end_date := applyField t.end_date p.end_date
  maliciousness := applyField t.maliciousness p.maliciousness
  message := applyField t.message p.message
  progress := applyField t.progress p.progress
  verdict := applyField t.verdict p.verdict
  rules := applyField t.rules p.rules

/-- The `setdefault(sl, None)` loop of `Task.update` over the variable slots. -/
def TaskPayload.wipeVariable (p : TaskPayload) : TaskPayload :=
  { p with
    message := setdefaultNone p.message
    progress := setdefaultNone p.progress
    verdict := setdefaultNone p.verdict
    rules := setdefaultNone p.rules }

/-- `Task.update` of `objects.py`: when the payload carries a `status` key whose
value differs from the current status, every variable slot absent from the
payload is defaulted to `None` before the generic slot write. -/
def Task.update (t : Task) (p : TaskPayload) : Task :=
  let p' :=
    match p.status with
    | some s => if s ≠ t.status then p.wipeVariable else p
    | none => p
  t.applyPayload p'

/-- `Task.is_finished`: false exactly for statuses `"in queue"` and
`"processing"`. -/
def Task.is_finished (t : Task) : Bool :=
  !(t.status == some "in queue" || t.status == some "processing")

/-- `Task.is_processing`. -/
def Task.is_processing (t : Task) : Bool :=
  !t.is_finished

/-- The value of a payload's `"id"` key as read by `task.get("id")`: an absent
key reads as `None`. -/
def TaskPayload.idValue (p : TaskPayload) : Option Int :=
  match p.id with
  | none => none
  | some v => v

/-- `Task(**task)`: a fresh `Task` object has every slot unset; `__init__`
delegates to `Task.update`. -/
def Task.ofPayload (p : TaskPayload) : Task :=
  Task.update ⟨none, none, none, none, none, none, none, none, none, none⟩ p

/-- The `Analysis` object of `objects.py`.  The `tasks` slot is `none` while the
attribute is still unset (the `hasattr(self, "tasks")` distinction taken in
`Analysis.update`). -/
structure Analysis where
  id : Option Int
  sha1 : Option String
  sample_id : Option Int
  size : Option Int
  format_name : Option String
  start_date : Option String
  user_name : Option String
  tasks : Option (List Task)
deriving Repr, DecidableEq

/-- A keyword payload for `Analysis.update`: the scalar slots plus the popped
`tasks` list of task payloads (`kwargs.pop("tasks", [])`). -/
structure AnalysisPayload where
  id : Option (Option Int)
  sha1 : Option (Option String)
  sample_id : Option (Option Int)
  size : Option (Option Int)
  format_name : Option (Option String)
  start_date : Option (Option String)
  user_name : Option (Option String)
  tasks : Option (List TaskPayload)
deriving Repr, DecidableEq

/-- `Analysis._update_task_by_id`: walk the task list and update, in place, the
first task whose `id` equals the given identity; when no task matches, the list
is returned unchanged (a silent no-op). -/
def updateFirstById (ts : List Task) (task_id : Option Int) (data : TaskPayload) : List Task :=
  match ts with
  | [] => []
  | t :: rest =>
    if t.id = task_id then Task.update t data :: rest
    else t :: updateFirstById rest task_id data

/-- The scalar part of `ApiObject.update` specialised to `Analysis` (the
`tasks` key has already been popped from the payload). -/
def Analysis.applyScalars (a : Analysis) (p : AnalysisPayload) : Analysis :=
  { a with
    id := applyField a.id p.id
    sha1 := applyField a.sha1 p.sha1
    sample_id := applyField a.sample_id p.sample_id
    size := applyField a.size p.size
    format_name := applyField a.format_name p.format_name
    start_date := applyField a.start_date p.start_date
    user_name := applyField a.user_name p.user_name }

/-- `Analysis.update` of `objects.py`: pop the `tasks` payload (defaulting to
the empty list); when the local `tasks` collection already exists, route each
entry through `_update_task_by_id` keyed on the entry's `"id"`; otherwise build
the initial task list with `Task(**task)`; finally apply the scalar slots. -/
def Analysis.update (a : Analysis) (p : AnalysisPayload) : Analysis :=
  let taskPayloads := p.tasks.getD []
  match a.tasks with
  | some ts =>
    let ts' := taskPayloads.foldl (fun acc tp => updateFirstById acc tp.idValue tp) ts
    Analysis.applyScalars { a with tasks := some ts' } p
  | none =>
    Analysis.applyScalars { a with tasks := some (taskPayloads.map Task.ofPayload) } p

/-- `Analysis.is_finished`: `all(task.is_finished for task in self.tasks)`;
reading `self.tasks` while the slot is unset raises, modelled by `none`. -/
def Analysis.is_finished (a : Analysis) : Option Bool :=
  a.tasks.map (fun ts => ts.all Task.is_finished)

/-- The contribution of one task to `Analysis.total_progress`: a processing
task contributes its own `progress` (an unset `progress` makes the Python
addition raise, modelled by `none`), a finished task contributes 100. -/
def taskContribution (t : Task) : Option ℚ :=
  if t.is_processing then t.progress.map (fun n => (n : ℚ)) else some 100

/-- The running total of `Analysis.total_progress`, with `none` once any
contribution is undefined. -/
def sumContribs : List Task → Option ℚ
  | [] => some 0
  | t :: ts => do
    let c ← taskContribution t
    let rest ← sumContribs ts
    pure (c + rest)

/-- `Analysis.total_progress`: the accumulated total divided (true division) by
the number of tasks; `none` models the exceptions the Python code raises on an
unset task list, an empty task list (division by zero), or an unset `progress`
of a processing task. -/
def Analysis.total_progress (a : Analysis) : Option ℚ :=
  match a.tasks with
  | none => none
  | some ts =>
    if ts.length = 0 then none
    else (sumContribs ts).map (fun total => total / (ts.length : ℚ))

/-- The `retries` dictionary of a `CureIt` payload, as exercised by the test
suite: an optional `"left"` count and an optional `"after"` timestamp.
A present field models a present dictionary key. -/
structure RetriesDict where
  left : Option Int
  after : Option String
deriving Repr, DecidableEq

/-- Python truthiness of the `retries` attribute: `None` and the empty
dictionary are falsy, a dictionary with at least one key is truthy. -/
def retriesTruthy : Option RetriesDict → Bool
  | none => false
  | some r => r.left.isSome || r.after.isSome

/-- Python `"after" in self.retries`, evaluated only behind the truthiness
short-circuit of `can_retrying` (so the `none` case is never reached there). -/
def retriesHasAfter : Option RetriesDict → Bool
  | none => false
  | some r => r.after.isSome

/-- Python truthiness of an id attribute: `None` and `0` are falsy. -/
def idTruthy : Option Int → Bool
  | none => false
  | some n => n != 0

/-- The `CureIt` object of `objects.py`. -/
structure CureIt where
  status : Option String
  retries : Option RetriesDict
  analysis_id : Option Int
  task_id : Option Int
deriving Repr, DecidableEq

/-- A keyword payload for `CureIt.__init__`. -/
structure CureItPayload where
  status : Option (Option String)
  retries : Option (Option RetriesDict)
  analysis_id : Option (Option Int)
  task_id : Option (Option Int)
deriving Repr, DecidableEq

/-- `CureIt.__init__`: default the two id keys to `None`, write all slots from
the payload, then raise when neither `analysis_id` nor `task_id` is truthy. -/
def CureIt.init (p : CureItPayload) : Except String CureIt :=
  let c : CureIt :=
    { status := applyField none p.status
      retries := applyField none p.retries
      analysis_id := applyField none (setdefaultNone p.analysis_id)
      task_id := applyField none (setdefaultNone p.task_id) }
  if !idTruthy c.analysis_id && !idTruthy c.task_id then
    Except.error "CureIt is not bound to Analysis or Task"
  else
    Except.ok c

/-- Python `str(x)` of an optional int attribute. -/
def optIntStr : Option Int → String
  | none => "None"
  | some n => toString n

/-- Python `str(x)` of an optional string attribute. -/
def optStrStr : Option String → String
  | none => "None"
  | some s => s

/-- `CureIt.__repr__`: report the `Analysis` binding whenever `analysis_id` is
truthy, otherwise the `Task` binding. -/
def CureIt.reprStr (c : CureIt) : String :=
  if idTruthy c.analysis_id then
    "CureIt (Analysis[" ++ optIntStr c.analysis_id ++ "]) status: " ++ optStrStr c.status
  else
    "CureIt (Task[" ++ optIntStr c.task_id ++ "]) status: " ++ optStrStr c.status

/-- `CureIt.is_failed`. -/
def CureIt.is_failed (c : CureIt) : Bool :=
  c.status == some "failed"

/-- `CureIt.is_deleted`. -/
def CureIt.is_deleted (c : CureIt) : Bool :=
  c.status == some "deleted"

/-- `CureIt.can_retrying`: deleted, or failed with a falsy `retries` or with no
`"after"` key in `retries`. -/
def CureIt.can_retrying (c : CureIt) : Bool :=
  c.is_deleted || (c.is_failed && (!retriesTruthy c.retries || !retriesHasAfter c.retries))

/-!
The pagination loop of `utils.py`.  The page-fetch callable is modelled as a
function from the requested count and offset to the page of items it returns;
the optional `item_key` envelope unwrapping (`items = items[item_key]` when
`item_key` is truthy) is performed identically, before anything else looks at
the page, in both `iterator` and `all_items`, so it is absorbed into the fetch
function.  The unbounded `while True:` loop is modelled with explicit fuel:
`none` means the loop did not finish within the given number of iterations.
-/

/-- The `while True:` loop of `iterator`, recording, for a terminating run, the
list of offsets requested and the concatenation of all items yielded (each
page is yielded in full before the termination test). -/
def iteratorAux (func : Nat → Nat → List α) (count_per_request : Nat) :
    Nat → Nat → Option (List Nat × List α)
  | 0, _ => none
  | fuel + 1, offset =>
    let items := func count_per_request offset
    let offset' := offset + count_per_request
    if items.length = 0 ∨ items.length < count_per_request then
      some ([offset], items)
    else
      match iteratorAux func count_per_request fuel offset' with
      | none => none
      | some (offs, rest) => some (offset :: offs, items ++ rest)

/-- `iterator` of `utils.py`, started at its default offset 0: the items the
lazy generator yields before returning. -/
def iterator (func : Nat → Nat → List α) (count_per_request : Nat) (fuel : Nat) :
    Option (List α) :=
  (iteratorAux func count_per_request fuel 0).map (fun pr => pr.2)

/-- The `while True:` loop of `all_items`, carrying the `_all` accumulator
(`_all.extend(items)` each round). -/
def allItemsAux (func : Nat → Nat → List α) (count_per_request : Nat) :
    Nat → Nat → List α → Option (List α)
  | 0, _, _ => none
  | fuel + 1, offset, acc =>
    let items := func count_per_request offset
    let offset' := offset + count_per_request
    let acc' := acc ++ items
    if items.length = 0 ∨ items.length < count_per_request then
      some acc'
    else
      allItemsAux func count_per_request fuel offset' acc'

/-- `all_items` of `utils.py`, started at its default offset 0. -/
def all_items (func : Nat → Nat → List α) (count_per_request : Nat) (fuel : Nat) :
    Option (List α) :=
  allItemsAux func count_per_request fuel 0 []

/-!
The progress-subscription mechanism (`Analysis.subscribe_progress`).  A driven
run of the generator (the caller consuming it to exhaustion) is modelled as a
state-and-exception computation over a `SubState` that counts the calls to the
websocket primitives, records the yielded messages, and holds the local
`Analysis` object graph (`self`).  The behaviour of the external websocket is a
`StreamScript`: the outcomes of `connect` and `send` and the sequence of
results of successive receives.  `self.refresh()` (`objects.py` lines 436-437)
fetches a full payload and merges it with `Analysis.update`; the fetched
payload is the script's `refreshPayload`.
-/

/-- Python exceptions distinguished by `subscribe_progress`. -/
inductive PyExc where
  | wsConnClosed
  | vxApi (msg : String)
  | other (e : String)
deriving Repr, DecidableEq

/-- The observable state of a driven run of `subscribe_progress`. -/
structure SubState where
  graph : Analysis
  connectCalls : Nat
  sendCalls : Nat
  recvCalls : Nat
  closeCalls : Nat
  refreshCalls : Nat
  yielded : List String
deriving Repr, DecidableEq

/-- One receive step of the websocket: a non-empty message, a falsy message
(the clean end-of-stream signal), or an exception raised while receiving or
while parsing the received message. -/
inductive RecvEvent where
  | msg (s : String)
  | empty
  | exc (e : PyExc)
deriving Repr, DecidableEq

/-- The scripted behaviour of the external websocket and of the final
reconciliation fetch. -/
structure StreamScript where
  connectResult : Option PyExc
  sendResult : Option PyExc
  events : List RecvEvent
  refreshPayload : AnalysisPayload
deriving Repr, DecidableEq

/-- A stateful computation that may raise. -/
def Comp (α : Type) : Type :=
  SubState → SubState × Except PyExc α

/-- Return. -/
def Comp.pure (a : α) : Comp α :=
  fun s => (s, Except.ok a)

/-- Sequencing that propagates a raised exception. -/
def Comp.bind (m : Comp α) (f : α → Comp β) : Comp β :=
  fun s =>
    match m s with
    | (s', Except.ok a) => f a s'
    | (s', Except.error e) => (s', Except.error e)

/-- Raise. -/
def Comp.raiseExc (e : PyExc) : Comp α :=
  fun s => (s, Except.error e)

/-- `except websocket.WebSocketConnectionClosedException: pass` around a
block: that one exception is swallowed, every other outcome passes through. -/
def tryCatchClosed (m : Comp Unit) : Comp Unit :=
  fun s =>
    match m s with
    | (s', Except.error PyExc.wsConnClosed) => (s', Except.ok ())
    | r => r

/-- `try: body finally: fin`: the finaliser runs on every outcome of the body;
an exception of the body is re-raised after the finaliser (an exception of the
finaliser replaces it, as in Python). -/
def tryFinally (m fin : Comp Unit) : Comp Unit :=
  fun s =>
    match m s with
    | (s', Except.ok _) => fin s'
    | (s', Except.error e) =>
      match fin s' with
      | (s'', Except.ok _) => (s'', Except.error e)
      | (s'', Except.error e') => (s'', Except.error e')

/-- `ws.connect(...)`. -/
def connectC (sc : StreamScript) : Comp Unit :=
  fun s =>
    let s' := { s with connectCalls := s.connectCalls + 1 }
    match sc.connectResult with
    | none => (s', Except.ok ())
    | some e => (s', Except.error e)

/-- `ws.send(json.dumps(...))`. -/
def sendC (sc : StreamScript) : Comp Unit :=
  fun s =>
    let s' := { s with sendCalls := s.sendCalls + 1 }
    match sc.sendResult with
    | none => (s', Except.ok ())
    | some e => (s', Except.error e)

/-- One step of `for msg in ws`: consume the next scripted event; an
unscripted receive reads as a falsy message. -/
def recvC (sc : StreamScript) : Comp (Option String) :=
  fun s =>
    let s' := { s with recvCalls := s.recvCalls + 1 }
    match sc.events.get? s.recvCalls with
    | some (RecvEvent.msg m) => (s', Except.ok (some m))
    | some RecvEvent.empty => (s', Except.ok none)
    | some (RecvEvent.exc e) => (s', Except.error e)
    | none => (s', Except.ok none)

/-- `yield json.loads(msg)`, with the parsed value recorded by its source
text (a parse failure is a scripted `RecvEvent.exc`). -/
def yieldC (m : String) : Comp Unit :=
  fun s => ({ s with yielded := s.yielded ++ [m] }, Except.ok ())

/-- `ws.close()`. -/
def closeC : Comp Unit :=
  fun s => ({ s with closeCalls := s.closeCalls + 1 }, Except.ok ())

/-- `self.refresh()`: one synchronous fetch merged into the local object graph
with `Analysis.update`. -/
def refreshC (sc : StreamScript) : Comp Unit :=
  fun s =>
    ({ s with
        refreshCalls := s.refreshCalls + 1
        graph := s.graph.update sc.refreshPayload },
      Except.ok ())

/-- The receive loop `for msg in ws: if not msg: break; yield json.loads(msg)`.
Each iteration consumes one scripted event, so `events.length + 1` fuel always
suffices. -/
def recvLoop (sc : StreamScript) : Nat → Comp Unit
  | 0 => Comp.pure ()
  | fuel + 1 =>
    Comp.bind (recvC sc) (fun m =>
      match m with
      | none => Comp.pure ()
      | some msg => Comp.bind (yieldC msg) (fun _ => recvLoop sc fuel))

/-- The body of `subscribe_progress` after the precondition: connect, send the
initiation message, run the receive loop; the peer-closed exception is
swallowed; close and refresh always run in the `finally` block. -/
def subscribeBody (sc : StreamScript) : Comp Unit :=
  tryFinally
    (tryCatchClosed
      (Comp.bind (connectC sc) (fun _ =>
        Comp.bind (sendC sc) (fun _ =>
          recvLoop sc (sc.events.length + 1)))))
    (Comp.bind closeC (fun _ => refreshC sc))

/-- A driven run of `Analysis.subscribe_progress`, with `self` held in the
state's `graph`: raise at once when the analysis is already finished (before
any connection), otherwise run the body.  Reading `self.tasks` while unset
raises an attribute error. -/
def subscribeProgress (sc : StreamScript) : Comp Unit :=
  fun s =>
    match Analysis.is_finished s.graph with
    | none => (s, Except.error (PyExc.other "AttributeError: tasks"))
    | some true => (s, Except.error (PyExc.vxApi "All tasks finished"))
    | some false => subscribeBody sc s

/-! Concrete objects used by witnesses. -/

/-- A task that is `"processing"` with `progress=50`, `message="x"`. -/
def exampleTask : Task :=
  ⟨some 1, some "processing", some "winxpx86", none, none, none, some "x", some 50, none, none⟩

/-- The payload `{status: "successful", verdict: "guilty"}`. -/
def examplePayload : TaskPayload :=
  ⟨none, some (some "successful"), none, none, none, none, none, none, some (some "guilty"), none⟩

/-- The payload `{progress: 80}` (no status key). -/
def progressOnlyPayload : TaskPayload :=
  ⟨none, none, none, none, none, none, none, some (some 80), none, none⟩

/-- A task at status `"in queue"` with progress 0. -/
def taskQueued : Task :=
  ⟨some 1, some "in queue", none, none, none, none, none, some 0, none, none⟩

/-- A task at status `"processing"` with progress 35. -/
def taskProc35 : Task :=
  ⟨some 2, some "processing", none, none, none, none, none, some 35, none, none⟩

/-- A failed task with no progress value. -/
def taskFailed : Task :=
  ⟨some 3, some "failed", none, none, none, none, none, none, none, none⟩

/-- A task at status `"processing"` with progress 65. -/
def taskProc65 : Task :=
  ⟨some 4, some "processing", none, none, none, none, none, some 65, none, none⟩

/-- An analysis holding the four tasks above. -/
def analysisExample : Analysis :=
  ⟨some 7, none, none, none, none, none, none, some [taskQueued, taskProc35, taskFailed, taskProc65]⟩

/-!  Theorems. -/

/-- Claim C2: whenever a `Task.update` payload carries a `status` differing
from the task's current status, every variable attribute (`message`,
`progress`, `verdict`, `rules`) absent from that payload ends up `None`. -/
theorem task_status_change_wipes_unsupplied (t : Task) (p : TaskPayload) (s : Option String)
    (hs : p.status = some s) (hne : s ≠ t.status) :
    (p.message = none → (t.update p).message = none)
    ∧ (p.progress = none → (t.update p).progress = none)
    ∧ (p.verdict = none → (t.update p).verdict = none)
    ∧ (p.rules = none → (t.update p).rules = none) := by
  have hwipe : t.update p = t.applyPayload p.wipeVariable := by
    unfold Task.update
    rw [hs]
    simp [hne]
  refine ⟨fun h => ?_, fun h => ?_, fun h => ?_, fun h => ?_⟩ <;>
    simp [hwipe, Task.applyPayload, TaskPayload.wipeVariable, setdefaultNone, applyField, h]

/-- Witness for C2: the spec's concrete instance: a `"processing"` task with
`progress=50`, `message="x"` updated with `{status: "successful", verdict:
"guilty"}` ends with `progress=None`, `message=None`, `verdict="guilty"`,
`rules=None`. -/
theorem task_status_change_wipes_unsupplied_witness :
    (Task.update exampleTask examplePayload).progress = none
    ∧ (Task.update exampleTask examplePayload).message = none
    ∧ (Task.update exampleTask examplePayload).verdict = some "guilty"
    ∧ (Task.update exampleTask examplePayload).rules = none := by
  have h := task_status_change_wipes_unsupplied exampleTask examplePayload
    (some "successful") rfl (by decide)
  exact ⟨h.2.1 rfl, h.1 rfl, rfl, h.2.2.2 rfl⟩

/-- Claim C10: a `Task.update` payload that omits `status` or repeats the
current status wipes nothing: each of `message`, `progress`, `verdict`,
`rules` keeps its value unless the payload supplies one. -/
theorem task_update_keeps_variables_without_status_change (t : Task) (p : TaskPayload)
    (h : p.status = none ∨ p.status = some t.status) :
    ((p.message = none → (t.update p).message = t.message)
      ∧ ∀ v, p.message = some v → (t.update p).message = v)
    ∧ ((p.progress = none → (t.update p).progress = t.progress)
      ∧ ∀ v, p.progress = some v → (t.update p).progress = v)
    ∧ ((p.verdict = none → (t.update p).verdict = t.verdict)
      ∧ ∀ v, p.verdict = some v → (t.update p).verdict = v)
    ∧ ((p.rules = none → (t.update p).rules = t.rules)
      ∧ ∀ v, p.rules = some v → (t.update p).rules = v) := by
  have hid : t.update p = t.applyPayload p := by
    unfold Task.update
    rcases h with h | h <;> simp [h]
  rw [hid]
  refine ⟨⟨fun hm => ?_, fun v hm => ?_⟩, ⟨fun hm => ?_, fun v hm => ?_⟩,
    ⟨fun hm => ?_, fun v hm => ?_⟩, ⟨fun hm => ?_, fun v hm => ?_⟩⟩ <;>
    simp [Task.applyPayload, applyField, hm]

/-- Witness for C10: updating the example task with `{progress: 80}` keeps
`message="x"` and sets `progress=80`. -/
theorem task_update_keeps_variables_without_status_change_witness :
    (Task.update exampleTask progressOnlyPayload).message = some "x"
    ∧ (Task.update exampleTask progressOnlyPayload).progress = some 80 := by
  have h := task_update_keeps_variables_without_status_change exampleTask
    progressOnlyPayload (Or.inl rfl)
  exact ⟨h.1.1 rfl, h.2.1.2 (some 80) rfl⟩

/-- A `CureIt` payload carrying both a truthy `analysis_id` and a truthy
`task_id`. -/
def bothBoundPayload : CureItPayload :=
  ⟨some (some "successful"), some none, some (some 1), some (some 2)⟩

/-- Counterexample to claim C5 as stated: constructing a `CureIt` with both
`analysis_id` and `task_id` set does not fail — `__init__` only rejects the
case where neither id is truthy, so this construction succeeds. -/
theorem cureit_both_bound_succeeds :
    CureIt.init bothBoundPayload =
      Except.ok { status := some "successful", retries := none,
                  analysis_id := some 1, task_id := some 2 } := rfl

/-- Claim C5 (amended): construction fails with a local validation error
exactly when neither `analysis_id` nor `task_id` is truthy; any other
construction succeeds (in particular one with both ids set), and the string
form names the bound type and id, preferring `Analysis` whenever
`analysis_id` is truthy. -/
theorem cureit_binding_spec (p : CureItPayload) :
    (CureIt.init p).toOption.map CureIt.reprStr =
      (if idTruthy (p.analysis_id.getD none) then
        some ("CureIt (Analysis[" ++ optIntStr (p.analysis_id.getD none) ++ "]) status: "
          ++ optStrStr (p.status.getD none))
      else if idTruthy (p.task_id.getD none) then
        some ("CureIt (Task[" ++ optIntStr (p.task_id.getD none) ++ "]) status: "
          ++ optStrStr (p.status.getD none))
      else none) := by
  have ha : applyField none (setdefaultNone p.analysis_id) = p.analysis_id.getD none := by
    cases p.analysis_id <;> rfl
  have ht : applyField none (setdefaultNone p.task_id) = p.task_id.getD none := by
    cases p.task_id <;> rfl
  have hs : applyField (none : Option String) p.status = p.status.getD none := by
    cases p.status <;> rfl
  unfold CureIt.init CureIt.reprStr
  by_cases hA : idTruthy (p.analysis_id.getD none) = true <;>
    by_cases hT : idTruthy (p.task_id.getD none) = true <;>
      simp [ha, ht, hs, hA, hT, Except.toOption]

/-- The CureIt shape the test suite marks as exhausted, but with a positive
retry count remaining: `status="failed"`, `retries={left: 2, after: ...}`. -/
def failedWithCountAndAfter : CureIt :=
  ⟨some "failed", some ⟨some 2, some "2018-04-08T15:16:23.420000+00:00"⟩, some 1, none⟩

/-- Counterexample to claim C6 as stated: a failed `CureIt` with a retry count
remaining (`left = 2`) is nevertheless not retry-eligible, because
`can_retrying` keys on the presence of the `"after"` marker, not on the
remaining count. -/
theorem can_retrying_count_remaining_false :
    failedWithCountAndAfter.is_failed = true
    ∧ failedWithCountAndAfter.retries.map RetriesDict.left = some (some 2)
    ∧ failedWithCountAndAfter.can_retrying = false := by decide

/-- Claim C6 (amended): `can_retrying` is true iff the CureIt is deleted, or
is failed with no recorded next-retry-after marker (in particular with no
retry information at all); a failed CureIt with the `"after"` marker present
is never eligible, whatever retry count remains. -/
theorem can_retrying_amended (c : CureIt) :
    c.can_retrying = (c.is_deleted || (c.is_failed && !retriesHasAfter c.retries)) := by
  unfold CureIt.can_retrying
  cases hc : c.retries with
  | none => rfl
  | some r => cases hr : r.after <;> simp [retriesTruthy, retriesHasAfter, hr]

/-- The accumulator of `all_items` only prepends to what the lazy loop would
yield from the same offset. -/
theorem allItemsAux_eq_iteratorAux (func : Nat → Nat → List α) (cpr : Nat) :
    ∀ (fuel offset : Nat) (acc : List α),
      allItemsAux func cpr fuel offset acc =
        (iteratorAux func cpr fuel offset).map (fun pr => acc ++ pr.2) := by
  intro fuel
  induction fuel with
  | zero => intro offset acc; rfl
  | succ n ih =>
    intro offset acc
    unfold allItemsAux iteratorAux
    by_cases h : (func cpr offset).length = 0 ∨ (func cpr offset).length < cpr
    · rw [if_pos h, if_pos h]
      rfl
    · simp only [h, if_false]
      rw [ih]
      cases iteratorAux func cpr n (offset + cpr) with
      | none => rfl
      | some pr => simp

/-- Claim C4: `all_items` performs the identical pagination protocol to
`iterator` and returns exactly the list of items the lazy iterator yields when
consumed to exhaustion, at every starting offset and in particular at the
default offset 0. -/
theorem all_items_eq_iterator (func : Nat → Nat → List α) (count_per_request fuel offset : Nat) :
    allItemsAux func count_per_request fuel offset [] =
      (iteratorAux func count_per_request fuel offset).map (fun pr => pr.2)
    ∧ all_items func count_per_request fuel = iterator func count_per_request fuel := by
  constructor
  · rw [allItemsAux_eq_iteratorAux]
    cases iteratorAux func count_per_request fuel offset <;> simp
  · unfold all_items iterator
    rw [allItemsAux_eq_iteratorAux]
    cases iteratorAux func count_per_request fuel 0 <;> simp

/-- Claim C3: a terminating run of the `iterator` loop requests successive
offsets in arithmetic progression with step exactly `count_per_request`,
yields the concatenation, in order, of every fetched page (the final short
page included), every page before the last fails the stop test, and the run
stops at the first page whose length is zero or below `count_per_request`. -/
theorem iterator_pagination_spec (func : Nat → Nat → List α) (cpr : Nat) :
    ∀ (fuel offset : Nat) (offs : List Nat) (its : List α),
      iteratorAux func cpr fuel offset = some (offs, its) →
      offs = List.range' offset offs.length cpr
      ∧ its = (offs.map (fun o => func cpr o)).flatten
      ∧ 0 < offs.length
      ∧ (∀ o ∈ offs.dropLast, ¬((func cpr o).length = 0 ∨ (func cpr o).length < cpr))
      ∧ (∃ last, offs.getLast? = some last
          ∧ ((func cpr last).length = 0 ∨ (func cpr last).length < cpr)) := by
  intro fuel
  induction fuel with
  | zero => intro offset offs its h; exact absurd h (by simp [iteratorAux])
  | succ n ih =>
    intro offset offs its h
    unfold iteratorAux at h
    by_cases hstop : (func cpr offset).length = 0 ∨ (func cpr offset).length < cpr
    · simp only [hstop, if_true] at h
      obtain ⟨h1, h2⟩ := Prod.mk.injEq .. ▸ Option.some.injEq .. ▸ h
      subst h1
      subst h2
      refine ⟨by simp [List.range'], by simp, by simp, by simp, ?_⟩
      exact ⟨offset, by simp, hstop⟩
    · simp only [hstop, if_false] at h
      cases hrec : iteratorAux func cpr n (offset + cpr) with
      | none => rw [hrec] at h; exact absurd h (by simp)
      | some pr =>
        rw [hrec] at h
        obtain ⟨offs', rest⟩ := pr
        obtain ⟨hoffs, hits⟩ := Prod.mk.injEq .. ▸ Option.some.injEq .. ▸ h
        obtain ⟨ih1, ih2, ih3, ih4, last, ih5, ih6⟩ := ih (offset + cpr) offs' rest hrec
        subst hoffs
        subst hits
        obtain ⟨hd, tl, htl⟩ : ∃ hd tl, offs' = hd :: tl := by
          cases offs' with
          | nil => exact absurd ih3 (by simp)
          | cons hd tl => exact ⟨hd, tl, rfl⟩
        refine ⟨?_, ?_, by simp, ?_, ?_⟩
        · calc offset :: offs'
              = offset :: List.range' (offset + cpr) offs'.length cpr := by rw [← ih1]
            _ = List.range' offset (offs'.length + 1) cpr := by simp [List.range']
            _ = List.range' offset ((offset :: offs').length) cpr := by simp
        · simp [ih2]
        · intro o ho
          rw [htl] at ho
          simp only [List.dropLast_cons₂, List.mem_cons] at ho
          rcases ho with ho | ho
          · subst ho; exact hstop
          · exact ih4 o (by rw [htl]; simpa using ho)
        · refine ⟨last, ?_, ih6⟩
          rw [htl] at ih5 ⊢
          simpa using ih5

/-- The spec's pagination stub: 100 items in total, served in slices. -/
def stub100 : Nat → Nat → List Nat :=
  fun count offset => ((List.range 100).drop offset).take count

/-- Witness for C3: with the 100-item stub and page size 9 the iterator
yields exactly the 100 items (so exactly 100 of them), requesting the offsets
0, 9, ..., 99. -/
theorem iterator_pagination_spec_witness :
    iterator stub100 9 20 = some (List.range 100)
    ∧ (List.range 100).length = 100
    ∧ List.range' 0 12 9 = List.range' 0 (List.range' 0 12 9).length 9 := by
  have h := iterator_pagination_spec stub100 9 20 0 (List.range' 0 12 9) (List.range 100)
    (by decide)
  refine ⟨?_, by decide, h.1⟩
  unfold iterator
  rw [show iteratorAux stub100 9 20 0 = some (List.range' 0 12 9, List.range 100) from by decide]
  rfl

/-- The spec's notion of a terminal task status: one of `"successful"`,
`"failed"`, `"deleted"`. -/
def specTerminal (t : Task) : Bool :=
  t.status == some "successful" || t.status == some "failed" || t.status == some "deleted"

/-- The spec's per-task progress contribution: 100 for a terminal task, the
task's own progress value otherwise. -/
def specContribution (t : Task) : ℚ :=
  if specTerminal t then 100 else ((t.progress.getD 0 : Int) : ℚ)

/-- The spec's aggregate: the arithmetic mean of the per-task contributions. -/
def specMeanProgress (ts : List Task) : ℚ :=
  (ts.map specContribution).sum / (ts.length : ℚ)

/-- Over tasks whose status stays inside the documented enum and whose
processing members carry a progress value, the code's running total is the
sum of the spec's contributions. -/
theorem sumContribs_eq (ts : List Task)
    (henum : ∀ t ∈ ts, t.status = some "in queue" ∨ t.status = some "processing"
        ∨ t.status = some "successful" ∨ t.status = some "failed" ∨ t.status = some "deleted")
    (hprog : ∀ t ∈ ts, t.is_processing = true → t.progress.isSome = true) :
    sumContribs ts = some ((ts.map specContribution).sum) := by
  induction ts with
  | nil => rfl
  | cons t rest ih =>
    have ht := henum t (by simp)
    have hc : taskContribution t = some (specContribution t) := by
      rcases ht with h | h | h | h | h
      · have hproc : t.is_processing = true := by
          simp [Task.is_processing, Task.is_finished, h]
        obtain ⟨n, hn⟩ := Option.isSome_iff_exists.mp (hprog t (by simp) hproc)
        simp [taskContribution, specContribution, specTerminal, hproc, h, hn]
      · have hproc : t.is_processing = true := by
          simp [Task.is_processing, Task.is_finished, h]
        obtain ⟨n, hn⟩ := Option.isSome_iff_exists.mp (hprog t (by simp) hproc)
        simp [taskContribution, specContribution, specTerminal, hproc, h, hn]
      · simp [taskContribution, specContribution, specTerminal,
          Task.is_processing, Task.is_finished, h]
      · simp [taskContribution, specContribution, specTerminal,
          Task.is_processing, Task.is_finished, h]
      · simp [taskContribution, specContribution, specTerminal,
          Task.is_processing, Task.is_finished, h]
    have hrest := ih (fun x hx => henum x (by simp [hx]))
      (fun x hx hp => hprog x (by simp [hx]) hp)
    simp [sumContribs, hc, hrest]

/-- Claim C8: for an analysis whose task list is present and non-empty, whose
task statuses stay inside the documented enum, and whose non-terminal tasks
carry a progress value, `total_progress` is the arithmetic mean over all
tasks of: 100 for a terminal task (successful, failed or deleted), else the
task's own progress value. -/
theorem total_progress_is_mean (a : Analysis) (ts : List Task)
    (hts : a.tasks = some ts) (hne : ts ≠ [])
    (henum : ∀ t ∈ ts, t.status = some "in queue" ∨ t.status = some "processing"
        ∨ t.status = some "successful" ∨ t.status = some "failed" ∨ t.status = some "deleted")
    (hprog : ∀ t ∈ ts, t.is_processing = true → t.progress.isSome = true) :
    a.total_progress = some (specMeanProgress ts) := by
  unfold Analysis.total_progress
  rw [hts]
  have hlen : ¬(ts.length = 0) := by simpa using hne
  show (if ts.length = 0 then none
    else (sumContribs ts).map (fun total => total / (ts.length : ℚ))) = some (specMeanProgress ts)
  rw [if_neg hlen, sumContribs_eq ts henum hprog]
  rfl

/-- Witness for C8: the spec's concrete instance: tasks at
in queue/0, processing/35, failed/—, processing/65 give `total_progress` 50. -/
theorem total_progress_is_mean_witness :
    Analysis.total_progress analysisExample = some 50 := by
  have h := total_progress_is_mean analysisExample
    [taskQueued, taskProc35, taskFailed, taskProc65] rfl (by decide) (by decide) (by decide)
  rw [h]
  simp +decide [specMeanProgress, specContribution, specTerminal,
    taskQueued, taskProc35, taskFailed, taskProc65]
  norm_num

/-- `Task.update` writes the `id` slot from the payload alone: the
status-change wipe touches only the variable slots. -/
theorem Task.update_id (t : Task) (p : TaskPayload) :
    (t.update p).id = applyField t.id p.id := by
  unfold Task.update Task.applyPayload TaskPayload.wipeVariable
  cases p.status with
  | none => rfl
  | some s => by_cases h : s ≠ t.status <;> simp [h]

/-- Updating a task through `_update_task_by_id` with the identity taken from
the payload's own `"id"` key never changes any task's identity, so the task
list keeps its identities in order. -/
theorem updateFirstById_map_id (ts : List Task) (tid : Option Int) (d : TaskPayload)
    (htid : tid = d.idValue) :
    (updateFirstById ts tid d).map Task.id = ts.map Task.id := by
  induction ts with
  | nil => rfl
  | cons t rest ih =>
    unfold updateFirstById
    by_cases h : t.id = tid
    · have hid : (t.update d).id = t.id := by
        rw [Task.update_id]
        cases hd : d.id with
        | none => rfl
        | some v =>
          have : t.id = v := by
            rw [h, htid]
            unfold TaskPayload.idValue
            rw [hd]
          simp [applyField, this]
      simp [h, hid]
    · simp [h, ih]

/-- `_update_task_by_id` with an identity matching no local task is a silent
no-op: the task list is returned unchanged. -/
theorem updateFirstById_unknown (ts : List Task) (tid : Option Int) (d : TaskPayload)
    (h : tid ∉ ts.map Task.id) :
    updateFirstById ts tid d = ts := by
  induction ts with
  | nil => rfl
  | cons t rest ih =>
    simp only [List.map_cons, List.mem_cons, not_or] at h
    unfold updateFirstById
    have hne : ¬(t.id = tid) := fun hx => h.1 hx.symm
    simp [hne, ih h.2]

/-- The task-payload fold of `Analysis.update` preserves the identity list. -/
theorem foldl_update_map_id (tps : List TaskPayload) (ts : List Task) :
    (tps.foldl (fun acc tp => updateFirstById acc tp.idValue tp) ts).map Task.id
      = ts.map Task.id := by
  induction tps generalizing ts with
  | nil => rfl
  | cons tp rest ih =>
    rw [List.foldl_cons, ih, updateFirstById_map_id ts tp.idValue tp rfl]

/-- Claim C9: for an analysis whose task collection already exists,
`Analysis.update` modifies only tasks whose identity already exists locally —
the task list keeps its membership and order (the identity list is unchanged,
so nothing is appended or removed), and a payload entry referencing an
unknown identity is a silent no-op on the task list. -/
theorem analysis_update_tasks_frame (a : Analysis) (ts : List Task) (p : AnalysisPayload)
    (hts : a.tasks = some ts) :
    (∃ ts', (a.update p).tasks = some ts' ∧ ts'.map Task.id = ts.map Task.id)
    ∧ (∀ (us : List Task) (tp : TaskPayload), tp.idValue ∉ us.map Task.id →
        updateFirstById us tp.idValue tp = us) := by
  constructor
  · refine ⟨(p.tasks.getD []).foldl (fun acc tp => updateFirstById acc tp.idValue tp) ts,
      ?_, foldl_update_map_id _ _⟩
    unfold Analysis.update
    rw [hts]
    rfl
  · exact fun us tp h => updateFirstById_unknown us tp.idValue tp h

/-- An update payload whose only task entry references the unknown identity
99 and tries to set its progress. -/
def unknownTaskPayload : AnalysisPayload :=
  ⟨none, none, none, none, none, none, none,
    some [⟨some (some 99), none, none, none, none, none, none, some (some 10), none, none⟩]⟩

/-- Witness for C9: updating the example analysis with a payload that
references only the unknown task identity 99 leaves the task list's identity
sequence unchanged, and the per-entry routine leaves the task list itself
unchanged. -/
theorem analysis_update_tasks_frame_witness :
    (∃ ts', (Analysis.update analysisExample unknownTaskPayload).tasks = some ts'
      ∧ ts'.map Task.id = [some 1, some 2, some 3, some 4])
    ∧ updateFirstById [taskQueued, taskProc35, taskFailed, taskProc65] (some 99)
        ⟨some (some 99), none, none, none, none, none, none, some (some 10), none, none⟩
      = [taskQueued, taskProc35, taskFailed, taskProc65] := by
  have h := analysis_update_tasks_frame analysisExample
    [taskQueued, taskProc35, taskFailed, taskProc65] unknownTaskPayload rfl
  constructor
  · obtain ⟨ts', h1, h2⟩ := h.1
    exact ⟨ts', h1, by rw [h2]; rfl⟩
  · exact h.2 [taskQueued, taskProc35, taskFailed, taskProc65]
      ⟨some (some 99), none, none, none, none, none, none, some (some 10), none, none⟩
      (by decide)

/-- A computation that touches neither the close counter, nor the refresh
counter, nor the object graph. -/
def PreservesCRG (m : Comp α) : Prop :=
  ∀ s : SubState, ((m s).1.closeCalls = s.closeCalls)
    ∧ ((m s).1.refreshCalls = s.refreshCalls)
    ∧ ((m s).1.graph = s.graph)

/-- `Comp.pure` preserves close, refresh and graph. -/
theorem preservesCRG_pure (a : α) : PreservesCRG (Comp.pure a) :=
  fun _ => ⟨rfl, rfl, rfl⟩

/-- Sequencing preserving computations preserves close, refresh and graph. -/
theorem preservesCRG_bind {m : Comp α} {f : α → Comp β}
    (hm : PreservesCRG m) (hf : ∀ a, PreservesCRG (f a)) :
    PreservesCRG (Comp.bind m f) := by
  intro s
  have h1 := hm s
  unfold Comp.bind
  cases hres : m s with
  | mk s' r =>
    rw [hres] at h1
    cases r with
    | ok a =>
      have h2 := hf a s'
      exact ⟨by rw [h2.1, h1.1], by rw [h2.2.1, h1.2.1], by rw [h2.2.2, h1.2.2]⟩
    | error e => exact h1

/-- `ws.connect` preserves close, refresh and graph. -/
theorem preservesCRG_connectC (sc : StreamScript) : PreservesCRG (connectC sc) := by
  intro s
  unfold connectC
  cases sc.connectResult <;> exact ⟨rfl, rfl, rfl⟩

/-- `ws.send` preserves close, refresh and graph. -/
theorem preservesCRG_sendC (sc : StreamScript) : PreservesCRG (sendC sc) := by
  intro s
  unfold sendC
  cases sc.sendResult <;> exact ⟨rfl, rfl, rfl⟩

/-- A receive step preserves close, refresh and graph. -/
theorem preservesCRG_recvC (sc : StreamScript) : PreservesCRG (recvC sc) := by
  intro s
  unfold recvC
  cases hev : sc.events.get? s.recvCalls with
  | none => exact ⟨rfl, rfl, rfl⟩
  | some ev => cases ev <;> exact ⟨rfl, rfl, rfl⟩

/-- A yield preserves close, refresh and graph. -/
theorem preservesCRG_yieldC (m : String) : PreservesCRG (yieldC m) :=
  fun _ => ⟨rfl, rfl, rfl⟩

/-- The receive loop preserves close, refresh and graph: no mid-stream event
closes the socket or merges a fetch. -/
theorem preservesCRG_recvLoop (sc : StreamScript) :
    ∀ fuel, PreservesCRG (recvLoop sc fuel) := by
  intro fuel
  induction fuel with
  | zero => exact preservesCRG_pure ()
  | succ n ih =>
    unfold recvLoop
    refine preservesCRG_bind (preservesCRG_recvC sc) ?_
    intro m
    cases m with
    | none => exact preservesCRG_pure ()
    | some msg => exact preservesCRG_bind (preservesCRG_yieldC msg) (fun _ => ih)

/-- Swallowing the peer-closed exception preserves close, refresh and graph. -/
theorem preservesCRG_tryCatchClosed {m : Comp Unit} (hm : PreservesCRG m) :
    PreservesCRG (tryCatchClosed m) := by
  intro s
  have h := hm s
  unfold tryCatchClosed
  cases hres : m s with
  | mk s' r =>
    rw [hres] at h
    cases r with
    | ok a => exact h
    | error e => cases e <;> exact h

/-- `try ... finally: ws.close(); self.refresh()`: whatever the body did and
however it ended, the final state is the body's state with the close counter
and the refresh counter bumped once each and the reconciliation payload
merged into the graph. -/
theorem tryFinally_close_refresh (m : Comp Unit) (sc : StreamScript) (s : SubState) :
    (tryFinally m (Comp.bind closeC (fun _ => refreshC sc)) s).1 =
      { (m s).1 with
        closeCalls := (m s).1.closeCalls + 1
        refreshCalls := (m s).1.refreshCalls + 1
        graph := (m s).1.graph.update sc.refreshPayload } := by
  unfold tryFinally
  cases hres : m s with
  | mk s' r => cases r <;> rfl

/-- After `subscribeBody`, the connection has been closed once and exactly one
reconciliation fetch has been merged into the graph, on every outcome. -/
theorem subscribeBody_state (sc : StreamScript) (s : SubState) :
    (subscribeBody sc s).1.closeCalls = s.closeCalls + 1
    ∧ (subscribeBody sc s).1.refreshCalls = s.refreshCalls + 1
    ∧ (subscribeBody sc s).1.graph = s.graph.update sc.refreshPayload := by
  have hbody : PreservesCRG (tryCatchClosed
      (Comp.bind (connectC sc) (fun _ =>
        Comp.bind (sendC sc) (fun _ => recvLoop sc (sc.events.length + 1))))) :=
    preservesCRG_tryCatchClosed (preservesCRG_bind (preservesCRG_connectC sc)
      (fun _ => preservesCRG_bind (preservesCRG_sendC sc)
        (fun _ => preservesCRG_recvLoop sc _)))
  have hb := hbody s
  unfold subscribeBody
  rw [tryFinally_close_refresh]
  exact ⟨by rw [hb.1], by rw [hb.2.1], by rw [hb.2.2]⟩

/-- Claim C1: for every run of `subscribe_progress` on an unfinished analysis,
whatever the scripted stream does — a clean falsy end-of-stream, a peer-closed
exception during send or receive, or any other exception escaping the loop —
the connection is closed and exactly one synchronous refresh is merged into
the local object graph before control returns. -/
theorem subscribe_progress_always_reconciles (sc : StreamScript) (s0 : SubState)
    (h : s0.graph.is_finished = some false) :
    ((subscribeProgress sc) s0).1.closeCalls = s0.closeCalls + 1
    ∧ ((subscribeProgress sc) s0).1.refreshCalls = s0.refreshCalls + 1
    ∧ ((subscribeProgress sc) s0).1.graph = s0.graph.update sc.refreshPayload := by
  unfold subscribeProgress
  rw [h]
  exact subscribeBody_state sc s0

/-- A stream that delivers one event and then raises an exception that is not
the peer-closed condition, over a successful connect and send. -/
def midStreamFailScript : StreamScript :=
  ⟨none, none, [RecvEvent.msg "event1", RecvEvent.exc (PyExc.other "boom")],
    ⟨none, none, none, none, none, none, none, some []⟩⟩

/-- The initial state of a run over the unfinished example analysis. -/
def initialRunState : SubState :=
  ⟨analysisExample, 0, 0, 0, 0, 0, []⟩

/-- Witness for C1: a run whose receive loop dies on a mid-stream exception
still closes the connection once and merges exactly one refresh. -/
theorem subscribe_progress_always_reconciles_witness :
    ((subscribeProgress midStreamFailScript) initialRunState).1.closeCalls = 1
    ∧ ((subscribeProgress midStreamFailScript) initialRunState).1.refreshCalls = 1
    ∧ ((subscribeProgress midStreamFailScript) initialRunState).1.graph
        = analysisExample.update midStreamFailScript.refreshPayload := by
  have h := subscribe_progress_always_reconciles midStreamFailScript initialRunState (by decide)
  exact ⟨h.1, h.2.1, h.2.2⟩

/-- Claim C7: subscribing on an analysis whose every task is already finished
fails at once with the "All tasks finished" error and leaves the state
untouched: no connect, no send, no receive (and no close or refresh). -/
theorem subscribe_progress_rejects_finished (sc : StreamScript) (s0 : SubState) (ts : List Task)
    (hts : s0.graph.tasks = some ts) (hfin : ∀ t ∈ ts, t.is_finished = true) :
    (subscribeProgress sc) s0 = (s0, Except.error (PyExc.vxApi "All tasks finished")) := by
  have hall : ts.all Task.is_finished = true :=
    List.all_eq_true.mpr (fun t ht => hfin t ht)
  have hf : s0.graph.is_finished = some true := by
    unfold Analysis.is_finished
    rw [hts]
    simp [hall]
  unfold subscribeProgress
  rw [hf]

/-- An analysis whose only task has already failed (a terminal status). -/
def finishedAnalysis : Analysis :=
  ⟨some 9, none, none, none, none, none, none, some [taskFailed]⟩

/-- The initial state of a run over the finished analysis. -/
def finishedRunState : SubState :=
  ⟨finishedAnalysis, 0, 0, 0, 0, 0, []⟩

/-- Witness for C7: the finished example analysis makes the subscription fail
immediately with the untouched initial state. -/
theorem subscribe_progress_rejects_finished_witness :
    (subscribeProgress midStreamFailScript) finishedRunState
      = (finishedRunState, Except.error (PyExc.vxApi "All tasks finished")) :=
  subscribe_progress_rejects_finished midStreamFailScript finishedRunState [taskFailed]
    rfl (by decide)

end VxCubeApi
